import Mathlib

/-!
Verification of the Epic-to-Backlog generation pipeline (server.py, mcp_server.py).

Strings are modelled as `List Char`.  Python's `str.lower` is modelled by
`Char.toLower` (adequate for the ASCII data handled here), Python float
division of small integer counts is modelled by exact division in `ℚ`,
and Python's `str.replace` / `str.split(sep)` are modelled by fuel-based
structural recursions (the fuel `length + 1` always suffices, since every
step consumes at least one character).  External HTTP calls are modelled
by explicit outcome values passed in as arguments.
-/

/-- Python `s.lower()` (ASCII case folding). -/
def lowerStr (s : List Char) : List Char := s.map Char.toLower

/-- Python's membership test `needle in haystack` on strings. -/
def containsSub (needle : List Char) : List Char → Bool
  | [] => needle.isEmpty
  | c :: rest => needle.isPrefixOf (c :: rest) || containsSub needle rest

/-- Helper for Python `s.split()` (split on whitespace runs, dropping empties);
`acc` holds the chars of the current token in reverse. -/
def splitWsAux : List Char → List Char → List (List Char)
  | [], acc => if acc.isEmpty then [] else [acc.reverse]
  | c :: rest, acc =>
    if c.isWhitespace then
      if acc.isEmpty then splitWsAux rest [] else acc.reverse :: splitWsAux rest []
    else splitWsAux rest (c :: acc)

/-- Python `s.split()` with no separator argument. -/
def splitWs (s : List Char) : List (List Char) := splitWsAux s []

/-- Python `s.strip()`: remove leading and trailing whitespace. -/
def strip (s : List Char) : List Char :=
  ((s.dropWhile Char.isWhitespace).reverse.dropWhile Char.isWhitespace).reverse

/-- Fueled body of Python `s.replace(pat, rep)`: leftmost non-overlapping
occurrences.  One unit of fuel is spent per consumed character block, so
`s.length + 1` units always suffice. -/
def replaceAllFuel (pat rep : List Char) : Nat → List Char → List Char
  | _, [] => []
  | 0, s => s
  | fuel + 1, c :: rest =>
    if pat.isPrefixOf (c :: rest) && !pat.isEmpty then
      rep ++ replaceAllFuel pat rep fuel (rest.drop (pat.length - 1))
    else
      c :: replaceAllFuel pat rep fuel rest

/-- Python `s.replace(pat, rep)` (for the non-empty patterns used in the source). -/
def replaceAll (pat rep s : List Char) : List Char :=
  replaceAllFuel pat rep (s.length + 1) s

/-- Fueled body of Python `s.split(sep)`: splits at leftmost non-overlapping
occurrences of `sep`, keeping empty pieces. -/
def splitOnSubFuel (sep : List Char) : Nat → List Char → List Char → List (List Char)
  | _, [], acc => [acc.reverse]
  | 0, s, acc => [acc.reverse ++ s]
  | fuel + 1, c :: rest, acc =>
    if sep.isPrefixOf (c :: rest) && !sep.isEmpty then
      acc.reverse :: splitOnSubFuel sep fuel (rest.drop (sep.length - 1)) []
    else
      splitOnSubFuel sep fuel rest (c :: acc)

/-- Python `s.split(sep)` with an explicit separator. -/
def splitOnSub (sep s : List Char) : List (List Char) :=
  splitOnSubFuel sep (s.length + 1) s []

/-- Python `s.split(sep)[0]`: the prefix of `s` before the first occurrence
of `sep` (all of `s` when `sep` does not occur). -/
def takeBefore (sep : List Char) : List Char → List Char
  | [] => []
  | c :: rest =>
    if sep.isPrefixOf (c :: rest) && !sep.isEmpty then []
    else c :: takeBefore sep rest

/-- Python `sep.join(pieces)`. -/
def joinWith (sep : List Char) : List (List Char) → List Char
  | [] => []
  | [x] => x
  | x :: y :: rest => x ++ sep ++ joinWith sep (y :: rest)

/-- Python `" ".join(s.split())`: collapse whitespace runs to single spaces. -/
def collapseWs (s : List Char) : List Char := joinWith [' '] (splitWs s)


/-! ## RelevanceMatcher: keyword-overlap fallback
(server.py `generate_from_epic` lines 144-160, `find_wiki_pages` lines 239-249) -/

/-- One entry of the `matched_pages` list: `{"path": page, "confidence": score}`.
The Python float score is modelled as an exact rational. -/
structure MatchResult where
  path : List Char
  confidence : ℚ
deriving DecidableEq

/-- `epic_keywords = epic_title.lower().split()`. -/
def epicKeywords (phrase : List Char) : List (List Char) := splitWs (lowerStr phrase)

/-- `score = sum(1 for word in epic_keywords if word in page_lower) / len(epic_keywords)`
with `page_lower = page.lower()`.  Only meaningful when `keywords` is non-empty;
the caller guards the division. -/
def keywordScore (keywords : List (List Char)) (page : List Char) : ℚ :=
  ((keywords.countP (fun w => containsSub w (lowerStr page)) : ℚ)) / (keywords.length : ℚ)

/-- The fallback matching loop over `all_pages`.  Python raises
`ZeroDivisionError` at the first page when the keyword list is empty; that
exception is modelled as `.error ()`.  Pages with `score >= 0.3` are appended
in their original order. -/
def fallbackScan (keywords : List (List Char)) : List (List Char) → Except Unit (List MatchResult)
  | [] => .ok []
  | page :: rest =>
    if keywords.length = 0 then .error ()
    else
      match fallbackScan keywords rest with
      | .error e => .error e
      | .ok ms =>
        let s := keywordScore keywords page
        .ok (if (3 : ℚ) / 10 ≤ s then { path := page, confidence := s } :: ms else ms)

/-- The keyword fallback as run by `generate_from_epic` (no sort). -/
def fallbackMatchEpic (phrase : List Char) (pages : List (List Char)) :
    Except Unit (List MatchResult) :=
  fallbackScan (epicKeywords phrase) pages

/-- The descending-by-confidence comparison used to model
`sorted(matched, key=lambda x: x["confidence"], reverse=True)`. -/
def descLE (a b : MatchResult) : Bool := decide (b.confidence ≤ a.confidence)

/-- Python's `sorted(..., reverse=True)` is a stable sort; `List.mergeSort`
with `descLE` is the stable descending sort. -/
def sortDesc (l : List MatchResult) : List MatchResult := l.mergeSort descLE

/-- The keyword fallback as run by `find_wiki_pages` (same loop, then a stable
descending sort on confidence). -/
def fallbackMatchWiki (phrase : List Char) (pages : List (List Char)) :
    Except Unit (List MatchResult) :=
  (fallbackMatchEpic phrase pages).map sortDesc

/-- Step-1 guard `if not epic_title` of `generate_from_epic`: only the empty
string is missing. -/
def epicTitleMissing (t : List Char) : Bool := t.isEmpty

/-- Outcome of step 2 of `generate_from_epic` when the model ranking is
unavailable or failed (keyword fallback path). -/
inductive Step2Result where
  | noWikiPages
  | noRelated
  | wikiSearchFailed
  | ok (found : List MatchResult)
deriving DecidableEq

/-- Step 2 of `generate_from_epic` on the fallback path: empty corpus aborts
first; an exception inside the matching loop (the unguarded division) is
caught by the enclosing handler and reported as the wiki-search-failed error;
an empty match set aborts with the no-related-pages error. -/
def step2Fallback (epicTitle : List Char) (allPages : List (List Char)) : Step2Result :=
  if allPages.isEmpty then .noWikiPages
  else
    match fallbackMatchEpic epicTitle allPages with
    | .error _ => .wikiSearchFailed
    | .ok [] => .noRelated
    | .ok ms => .ok ms

/-! ## NarrativeParser (server.py `parse_stories`, lines 416-443) -/

/-- A parsed `{"title": ..., "description": ...}` record. -/
structure StoryRecord where
  title : List Char
  description : List Char
deriving DecidableEq

def titleMarker : List Char := "TITLE:".toList
def descMarker : List Char := "DESCRIPTION:".toList
def storyDelim : List Char := "---STORY---".toList
def endDelim : List Char := "---END---".toList

/-- Loop state of the line scan inside `parse_stories`. -/
structure ScanState where
  title : List Char
  descLines : List (List Char)
  inDesc : Bool
deriving DecidableEq

def initScan : ScanState := { title := [], descLines := [], inDesc := false }

/-- One iteration of `for line in lines` in `parse_stories`: strip the line,
then a `TITLE:` line overwrites the title (marker text removed, stripped), a
`DESCRIPTION:` line switches to description mode, and in description mode
every non-empty line is appended. -/
def scanLine (st : ScanState) (raw : List Char) : ScanState :=
  let line := strip raw
  if titleMarker.isPrefixOf line then
    { st with title := strip (replaceAll titleMarker [] line) }
  else if descMarker.isPrefixOf line then
    { st with inDesc := true }
  else if st.inDesc && !line.isEmpty then
    { st with descLines := st.descLines ++ [line] }
  else st

/-- The lines scanned for one block: content before `---END---`, stripped,
split on newlines. -/
def blockLines (block : List Char) : List (List Char) :=
  splitOnSub ['\n'] (strip (takeBefore endDelim block))

/-- Processing of one piece of the `---STORY---` split: pieces without
`---END---` are skipped; otherwise the line scan runs and a record is emitted
only when both a title and at least one description line were captured. -/
def parseBlock (block : List Char) : Option StoryRecord :=
  if !containsSub endDelim block then none
  else
    let st := (blockLines block).foldl scanLine initScan
    if !st.title.isEmpty && !st.descLines.isEmpty then
      some { title := st.title, description := joinWith ['\n'] st.descLines }
    else none

/-- `parse_stories(llm_output)`: split on the block-start delimiter and keep
the records of the well-formed blocks, in order. -/
def parse_stories (llmOutput : List Char) : List StoryRecord :=
  (splitOnSub storyDelim llmOutput).filterMap parseBlock

/-! ## AdmissionFilter (mcp_server.py `create_story`, lines 129-143) -/

/-- Title cleanup of `create_story`: strip, remove `###` then `##` then `#`
then `**`, and collapse whitespace runs. -/
def cleanTitle (title : List Char) : List Char :=
  collapseWs (replaceAll "**".toList []
    (replaceAll "#".toList []
      (replaceAll "##".toList []
        (replaceAll "###".toList [] (strip title)))))

/-- `skip_keywords = ["acceptance criteria", "---", "as a", "**as"]`. -/
def skipKeywords : List (List Char) :=
  ["acceptance criteria".toList, "---".toList, "as a".toList, "**as".toList]

/-- `any(keyword in clean_title.lower()[:30] for keyword in skip_keywords)`. -/
def isBoilerplate (clean : List Char) : Bool :=
  skipKeywords.any (fun k => containsSub k ((lowerStr clean).take 30))

/-- Result of the admission decision inside `create_story`. -/
inductive AdmissionResult where
  | rejectedBoilerplate
  | rejectedShort
  | accepted (cleanedTitle : List Char)
deriving DecidableEq

/-- The admission filter of `create_story`: boilerplate first, then the
minimum-length rule; accepted records carry the cleaned title. -/
def admission (title : List Char) : AdmissionResult :=
  let clean := cleanTitle title
  if isBoilerplate clean then .rejectedBoilerplate
  else if clean.length < 10 then .rejectedShort
  else .accepted clean

/-- Description formatting of `create_story`: strip, newlines to `<br/>`,
then normalize the two bullet spellings after a break. -/
def formatDescription (d : List Char) : List Char :=
  replaceAll "<br/>* ".toList "<br/>• ".toList
    (replaceAll "<br/>- ".toList "<br/>• ".toList
      (replaceAll ['\n'] "<br/>".toList (strip d)))

/-- Behaviour of the external Azure DevOps item-creation call. -/
inductive AzureResp where
  | ok (id : Nat)
  | err (status : Nat) (text : List Char)
  | exn (msg : List Char)
deriving DecidableEq

/-- What one `create_story` tool call returns: the `result` body of its JSON
response (the endpoint itself answers HTTP 200 on every one of these paths)
and whether an Azure work item was actually created. -/
structure CreateStoryResult where
  body : List Char
  createdWorkItem : Bool
deriving DecidableEq

/-- Model of `create_story` in mcp_server.py: missing-field check, admission
filter (rejections answered with a `Skipped` body and no work item), then the
Azure call whose failure is reported in the body, still with HTTP 200. -/
def create_story (title description : List Char) (azure : AzureResp) : CreateStoryResult :=
  if title.isEmpty || description.isEmpty then
    { body := "Missing title or description.".toList, createdWorkItem := false }
  else
    match admission title with
    | .rejectedBoilerplate =>
      { body := "Skipped: ".toList ++ (cleanTitle title).take 50, createdWorkItem := false }
    | .rejectedShort =>
      { body := "Skipped short title: ".toList ++ cleanTitle title, createdWorkItem := false }
    | .accepted clean =>
      match azure with
      | .ok id =>
        { body := "Successfully created Issue #".toList ++ (Nat.repr id).toList
            ++ ": ".toList ++ clean.take 50, createdWorkItem := true }
      | .err status text =>
        { body := "Error ".toList ++ (Nat.repr status).toList ++ ": ".toList ++ text.take 500,
          createdWorkItem := false }
      | .exn msg =>
        { body := "Error posting to Azure Boards: ".toList ++ msg, createdWorkItem := false }

/-! ## Stage 3: wiki content fetch (mcp_server.py `fetch_wiki`, lines 73-114,
and the abort check in server.py `generate_stories`, line 330) -/

/-- Behaviour of the external per-page content fetch. -/
inductive FetchOutcome where
  | success (content : List Char)
  | httpFail (status : Nat)
  | exn (msg : List Char)
deriving DecidableEq

def isFetchFailure : FetchOutcome → Bool
  | .success _ => false
  | .httpFail _ => true
  | .exn _ => true

/-- The section appended to `combined_content` for one page. -/
def fetchSection (p : List Char × FetchOutcome) : List Char :=
  "=== ".toList ++ p.1 ++ " ===\n".toList ++
    (match p.2 with
     | .success c => c
     | .httpFail _ => "Error: Could not fetch page".toList
     | .exn m => "Error: ".toList ++ m) ++
    "\n".toList

/-- `fetch_wiki`: an empty path list short-circuits; otherwise every page gets
one section (failures degrade to inline error markers) and the sections are
joined with newlines. -/
def fetch_wiki (pages : List (List Char × FetchOutcome)) : List Char :=
  if pages.isEmpty then "No page paths provided.".toList
  else joinWith ['\n'] (pages.map fetchSection)

def errorToken : List Char := "Error".toList

/-- The stage-3 abort check of `generate_stories`:
`if "Error" in wiki_content or not wiki_content: raise HTTPException(404, ...)`. -/
def wikiNotFound (content : List Char) : Bool :=
  containsSub errorToken content || content.isEmpty

/-! ## Stage 6: publish loop (server.py `generate_stories`, lines 368-413,
and the count in `generate_from_epic`, line 179) -/

/-- Behaviour of one HTTP POST to the MCP `create_story` tool endpoint as seen
by the orchestrator. -/
inductive PublishResp where
  | ok (body : List Char)
  | httpErr (text : List Char)
  | exn (msg : List Char)
deriving DecidableEq

def createdStatus : List Char := "created".toList
def failedStatus : List Char := "failed".toList

/-- One element of the `created_stories` list. -/
structure PublishOutcome where
  title : List Char
  status : List Char
deriving DecidableEq

/-- Outcome recorded for one story: HTTP 200 is recorded as `created`
whatever the body says; a non-200 response or a transport exception is
recorded as `failed`. -/
def publishOne (s : StoryRecord) (r : PublishResp) : PublishOutcome :=
  match r with
  | .ok _ => { title := s.title, status := createdStatus }
  | .httpErr _ => { title := s.title, status := failedStatus }
  | .exn _ => { title := s.title, status := failedStatus }

/-- The publish loop: one outcome per parsed story, in order; no response
aborts the remaining iterations. -/
def publishLoop (l : List (StoryRecord × PublishResp)) : List PublishOutcome :=
  l.map (fun p => publishOne p.1 p.2)

/-- `story_count = len([s for s in result["stories"] if s["status"] == "created"])`. -/
def storyCount (outs : List PublishOutcome) : Nat :=
  (outs.filter (fun o => o.status == createdStatus)).length

/-- The response the orchestrator receives when the MCP server is reachable:
`create_story` answers HTTP 200 on every path, so the body is all that varies. -/
def mcpPublish (s : StoryRecord) (azure : AzureResp) : PublishResp :=
  .ok (create_story s.title s.description azure).body

/-- Stage 6 with a reachable MCP server: each record's publish call goes
through `create_story` with the given Azure behaviour. -/
def runPublishStage (l : List (StoryRecord × AzureResp)) : List PublishOutcome :=
  publishLoop (l.map (fun p => (p.1, mcpPublish p.1 p.2)))

/-- How many records of a stage-6 run actually created an Azure work item. -/
def workItemsCreated (l : List (StoryRecord × AzureResp)) : Nat :=
  (l.filter (fun p => (create_story p.1.title p.1.description p.2).createdWorkItem)).length


/-! ## Bridge lemmas -/

/-- `List.isPrefixOf` computes list-prefix decomposition. -/
theorem prefixOf_spec : ∀ (l h : List Char), l.isPrefixOf h = true ↔ ∃ t, l ++ t = h
  | [], h => by simp [List.isPrefixOf]
  | _ :: _, [] => by simp [List.isPrefixOf]
  | a :: as, b :: bs => by
    simp only [List.isPrefixOf, Bool.and_eq_true, beq_iff_eq, List.cons_append,
      List.cons.injEq]
    constructor
    · rintro ⟨rfl, h2⟩
      obtain ⟨t, rfl⟩ := (prefixOf_spec as bs).mp h2
      exact ⟨t, rfl, rfl⟩
    · rintro ⟨t, rfl, rfl⟩
      exact ⟨rfl, (prefixOf_spec as (as ++ t)).mpr ⟨t, rfl⟩⟩

/-- `containsSub` computes the Python substring relation. -/
theorem containsSub_spec : ∀ (n h : List Char),
    containsSub n h = true ↔ ∃ pre suf, h = pre ++ n ++ suf
  | n, [] => by
    simp only [containsSub, List.isEmpty_iff]
    constructor
    · rintro rfl; exact ⟨[], [], rfl⟩
    · rintro ⟨pre, suf, h⟩
      rcases List.append_eq_nil.mp (List.append_eq_nil.mp h.symm).1 with ⟨-, h2⟩
      exact h2
  | n, c :: rest => by
    simp only [containsSub, Bool.or_eq_true]
    constructor
    · rintro (h | h)
      · obtain ⟨t, ht⟩ := (prefixOf_spec n (c :: rest)).mp h
        exact ⟨[], t, ht.symm⟩
      · obtain ⟨pre, suf, hd⟩ := (containsSub_spec n rest).mp h
        exact ⟨c :: pre, suf, by simp [hd]⟩
    · rintro ⟨pre, suf, hd⟩
      match pre, hd with
      | [], hd =>
        exact .inl ((prefixOf_spec n (c :: rest)).mpr ⟨suf, by simpa using hd.symm⟩)
      | p :: ps, hd =>
        refine .inr ((containsSub_spec n rest).mpr ⟨ps, suf, ?_⟩)
        have := hd
        simp only [List.cons_append, List.cons.injEq] at this
        exact this.2

theorem containsSub_of_decomp (n pre suf h : List Char) (hd : h = pre ++ n ++ suf) :
    containsSub n h = true :=
  (containsSub_spec n h).mpr ⟨pre, suf, hd⟩

theorem containsSub_trans {a b c : List Char} (h1 : containsSub a b = true)
    (h2 : containsSub b c = true) : containsSub a c = true := by
  obtain ⟨p2, s2, rfl⟩ := (containsSub_spec b c).mp h2
  obtain ⟨p1, s1, rfl⟩ := (containsSub_spec a b).mp h1
  exact containsSub_of_decomp a (p2 ++ p1) (s1 ++ s2) _ (by simp)

/-- Every joined piece is a substring of the join. -/
theorem containsSub_joinWith (sep : List Char) :
    ∀ (l : List (List Char)) (a : List Char), a ∈ l →
      containsSub a (joinWith sep l) = true
  | [], a, ha => by cases ha
  | [x], a, ha => by
    rcases List.mem_singleton.mp ha with rfl
    exact containsSub_of_decomp a [] [] _ (by simp [joinWith])
  | x :: y :: rest, a, ha => by
    rcases List.mem_cons.mp ha with rfl | ha
    · exact containsSub_of_decomp a [] (sep ++ joinWith sep (y :: rest)) _
        (by simp [joinWith])
    · obtain ⟨pre, suf, hd⟩ :=
        (containsSub_spec a (joinWith sep (y :: rest))).mp
          (containsSub_joinWith sep (y :: rest) a ha)
      exact containsSub_of_decomp a (x ++ sep ++ pre) suf _
        (by simp [joinWith, hd])

/-! ## C4: publish-stage partial failure -/

/-- Does the orchestrator see an HTTP 200 for this publish call? -/
def isOkResp : PublishResp → Bool
  | .ok _ => true
  | .httpErr _ => false
  | .exn _ => false

def c4Story1 : StoryRecord := { title := "User Story: First".toList, description := "d1".toList }
def c4Story2 : StoryRecord := { title := "User Story: Second".toList, description := "d2".toList }
def c4Story3 : StoryRecord := { title := "User Story: Third".toList, description := "d3".toList }

/-- Stage-6 run where only the second publish call fails. -/
def c4Input : List (StoryRecord × PublishResp) :=
  [(c4Story1, .ok "Successfully created Issue".toList),
   (c4Story2, .httpErr "Internal Server Error".toList),
   (c4Story3, .ok "Successfully created Issue".toList)]

/-- C4: a publish failure never aborts the loop: there is one outcome per
record, in original record order, and `storyCount` counts exactly the
outcomes of the successful calls; in particular three records whose second
call fails yield statuses created, failed, created and a count of 2. -/
theorem publish_partial_failure :
    (∀ l : List (StoryRecord × PublishResp),
      (publishLoop l).map PublishOutcome.title = l.map (fun p => p.1.title) ∧
      storyCount (publishLoop l) = (l.filter (fun p => isOkResp p.2)).length) ∧
    (publishLoop c4Input).map PublishOutcome.status =
      [createdStatus, failedStatus, createdStatus] ∧
    storyCount (publishLoop c4Input) = 2 := by
  refine ⟨fun l => ⟨?_, ?_⟩, by decide, by decide⟩
  · induction l with
    | nil => rfl
    | cons p rest ih =>
      rcases p with ⟨s, r⟩
      cases r <;> simp [publishLoop, publishOne, ih] <;>
        simpa [publishLoop] using ih
  · induction l with
    | nil => rfl
    | cons p rest ih =>
      rcases p with ⟨s, r⟩
      cases r <;>
        simp [publishLoop, publishOne, storyCount, isOkResp, createdStatus, failedStatus] <;>
          simpa [publishLoop, storyCount, createdStatus] using ih

/-! ## C10: outcome statuses are only created or failed -/

/-- C10: every recorded outcome has status created or failed — never skipped —
and any HTTP 200 response, whatever its body says (including a body reporting
an admission-filter skip), is recorded as created. -/
theorem publish_status_invariant :
    (∀ (l : List (StoryRecord × PublishResp)) (o : PublishOutcome),
      o ∈ publishLoop l → o.status = createdStatus ∨ o.status = failedStatus) ∧
    (∀ (s : StoryRecord) (body : List Char),
      publishOne s (.ok body) = { title := s.title, status := createdStatus }) := by
  constructor
  · intro l o ho
    obtain ⟨⟨s, r⟩, -, rfl⟩ := List.mem_map.mp ho
    cases r
    · exact .inl rfl
    · exact .inr rfl
    · exact .inr rfl
  · intro s body
    rfl

def c10Story : StoryRecord :=
  { title := "User Story: Example".toList, description := "Body".toList }

/-- Witness for C10 at a run whose single HTTP 200 response carries a
"Skipped" body. -/
theorem publish_status_invariant_witness :
    ({ title := c10Story.title, status := createdStatus } : PublishOutcome).status
        = createdStatus ∨
    ({ title := c10Story.title, status := createdStatus } : PublishOutcome).status
        = failedStatus :=
  publish_status_invariant.1 [(c10Story, .ok "Skipped: Login".toList)] _ (by decide)

/-! ## C7: admission filter examples -/

/-- C7: the filter rejects "Acceptance Criteria" as boilerplate and "Login" as
too short (cleaned length 5 < 10), and accepts "### Add Payment Method ###"
with cleaned title exactly "Add Payment Method" (length 18 >= 10). -/
theorem admission_filter_examples :
    admission "Acceptance Criteria".toList = .rejectedBoilerplate ∧
    admission "Login".toList = .rejectedShort ∧
    (cleanTitle "Login".toList).length = 5 ∧
    admission "### Add Payment Method ###".toList = .accepted "Add Payment Method".toList ∧
    cleanTitle "### Add Payment Method ###".toList = "Add Payment Method".toList ∧
    (cleanTitle "### Add Payment Method ###".toList).length = 18 := by
  decide

/-! ## C6: round-trip parse of a well-formed block -/

def roundTripInput : List Char :=
  ("---STORY---\nTITLE: User Story: Top Up Wallet\nDESCRIPTION:\nAs a user, I want to top up my wallet, so that I can pay.\n\nAcceptance Criteria:\n- Balance updates\n---END---").toList

def roundTripRecord : StoryRecord :=
  { title := "User Story: Top Up Wallet".toList,
    description := ("As a user, I want to top up my wallet, so that I can pay.\nAcceptance Criteria:\n- Balance updates").toList }

set_option maxRecDepth 8000 in
/-- C6: the well-formed sample block parses to exactly one record with the
expected title, and its description contains both the user-story body line
and the bullet line. -/
theorem round_trip_parse :
    parse_stories roundTripInput = [roundTripRecord] ∧
    roundTripRecord.title = "User Story: Top Up Wallet".toList ∧
    containsSub "As a user, I want to top up my wallet, so that I can pay.".toList
        roundTripRecord.description = true ∧
    containsSub "- Balance updates".toList roundTripRecord.description = true := by
  decide

/-! ## C3: admission-filter rejections are reported as created -/

/-- C3 (amended): a record the admission filter rejects is indeed not
published (no Azure work item), but it is not silently excluded from the
orchestrator's report: the tool endpoint answers HTTP 200 with a "Skipped"
body, so the record still gets a per-record outcome with status created, and
that outcome is counted by `storyCount`. -/
theorem rejected_record_reported_created (s : StoryRecord) (az : AzureResp)
    (ht : s.title ≠ []) (hd : s.description ≠ [])
    (hrej : admission s.title = .rejectedBoilerplate ∨ admission s.title = .rejectedShort) :
    (create_story s.title s.description az).createdWorkItem = false ∧
    publishOne s (mcpPublish s az) = { title := s.title, status := createdStatus } ∧
    storyCount [publishOne s (mcpPublish s az)] = 1 := by
  have hte : s.title.isEmpty = false := List.isEmpty_eq_false.mpr ht
  have hde : s.description.isEmpty = false := List.isEmpty_eq_false.mpr hd
  have hcs : (create_story s.title s.description az).createdWorkItem = false := by
    rw [create_story]
    rcases hrej with h | h <;> simp [hte, hde, h]
  refine ⟨hcs, rfl, ?_⟩
  simp [storyCount, publishOne, mcpPublish]

def shortTitleStory : StoryRecord :=
  { title := "Login".toList, description := "As a user, I want to log in.".toList }

/-- Counterexample to C3 as stated: the record titled "Login" is rejected by
the admission filter (cleaned length 5 < 10), no work item is created, yet
the orchestrator's outcome list contains an individual entry for it with
status created, and `storyCount` counts it. -/
theorem rejected_record_counterexample :
    admission shortTitleStory.title = .rejectedShort ∧
    runPublishStage [(shortTitleStory, .ok 1)] =
      [{ title := shortTitleStory.title, status := createdStatus }] ∧
    storyCount (runPublishStage [(shortTitleStory, .ok 1)]) = 1 ∧
    workItemsCreated [(shortTitleStory, .ok 1)] = 0 := by
  decide

def boilerStory : StoryRecord :=
  { title := "Acceptance Criteria".toList, description := "- Balance updates".toList }

/-- Witness for the amended C3 at the boilerplate-titled record. -/
theorem rejected_record_reported_created_witness :
    (create_story boilerStory.title boilerStory.description (.ok 7)).createdWorkItem = false ∧
    publishOne boilerStory (mcpPublish boilerStory (.ok 7)) =
      { title := boilerStory.title, status := createdStatus } ∧
    storyCount [publishOne boilerStory (mcpPublish boilerStory (.ok 7))] = 1 :=
  rejected_record_reported_created boilerStory (.ok 7) (by decide) (by decide)
    (.inl (by decide))

/-! ## C2: stage-3 fetch failures and the abort check -/

/-- C2 (amended): the fetch loop itself never aborts — every selected page,
including the ones after a failed fetch, contributes its section to the
combined blob, and a failed fetch contributes an inline error marker — but
the orchestrator's stage-3 check aborts with the documents-not-found error
whenever the substring "Error" occurs anywhere in the blob, so any single
fetch failure aborts the run before generation. -/
theorem fetch_failure_abort (pages : List (List Char × FetchOutcome))
    (hne : pages ≠ []) :
    (∀ p ∈ pages, containsSub (fetchSection p) (fetch_wiki pages) = true) ∧
    (∀ p ∈ pages, isFetchFailure p.2 = true →
      containsSub errorToken (fetchSection p) = true) ∧
    ((∃ p ∈ pages, isFetchFailure p.2 = true) → wikiNotFound (fetch_wiki pages) = true) := by
  have hjoin : fetch_wiki pages = joinWith ['\n'] (pages.map fetchSection) := by
    rw [fetch_wiki, if_neg]
    simp [List.isEmpty_iff, hne]
  have hsec : ∀ p ∈ pages, containsSub (fetchSection p) (fetch_wiki pages) = true := by
    intro p hp
    rw [hjoin]
    exact containsSub_joinWith _ _ _ (List.mem_map_of_mem fetchSection hp)
  have herr : ∀ p ∈ pages, isFetchFailure p.2 = true →
      containsSub errorToken (fetchSection p) = true := by
    rintro ⟨path, o⟩ hp hfail
    cases o with
    | success c => simp [isFetchFailure] at hfail
    | httpFail status =>
      exact containsSub_of_decomp errorToken
        ("=== ".toList ++ path ++ " ===\n".toList)
        (": Could not fetch page".toList ++ "\n".toList) _
        (by simp [fetchSection, errorToken])
    | exn m =>
      exact containsSub_of_decomp errorToken
        ("=== ".toList ++ path ++ " ===\n".toList)
        (": ".toList ++ m ++ "\n".toList) _
        (by simp [fetchSection, errorToken])
  refine ⟨hsec, herr, ?_⟩
  rintro ⟨p, hp, hfail⟩
  rw [wikiNotFound, containsSub_trans (herr p hp hfail) (hsec p hp), Bool.true_or]

def partialFetchRun : List (List Char × FetchOutcome) :=
  [("Wallet-Setup".toList, .success "Hello wallet docs".toList),
   ("Wallet-Payments".toList, .httpFail 404)]

/-- Counterexample to C2 as stated: with one successful and one failed fetch
the combined blob is neither empty nor entirely error markers (it contains
the fetched content), yet the stage-3 check still raises the 404
documents-not-found abort, so the partial blob does not proceed to
generation. -/
theorem fetch_failure_abort_counterexample :
    wikiNotFound (fetch_wiki partialFetchRun) = true ∧
    fetch_wiki partialFetchRun ≠ [] ∧
    containsSub "Hello wallet docs".toList (fetch_wiki partialFetchRun) = true := by
  decide

def singleFailureRun : List (List Char × FetchOutcome) :=
  [("Setup".toList, .success "Content".toList), ("Pay".toList, .exn "timeout".toList)]

/-- Witness for the amended C2 at a two-page run whose second fetch raises. -/
theorem fetch_failure_abort_witness :
    (∀ p ∈ singleFailureRun,
      containsSub (fetchSection p) (fetch_wiki singleFailureRun) = true) ∧
    (∀ p ∈ singleFailureRun, isFetchFailure p.2 = true →
      containsSub errorToken (fetchSection p) = true) ∧
    ((∃ p ∈ singleFailureRun, isFetchFailure p.2 = true) →
      wikiNotFound (fetch_wiki singleFailureRun) = true) :=
  fetch_failure_abort singleFailureRun (by decide)

/-! ## C5: only complete blocks yield records -/

/-- A raw line that (after stripping) carries the title marker. -/
def isTitleLine (raw : List Char) : Bool := titleMarker.isPrefixOf (strip raw)

/-- A raw line that (after stripping) is the description-marker line. -/
def isDescMarkerLine (raw : List Char) : Bool := descMarker.isPrefixOf (strip raw)

/-- A raw line that the scan would append to the description buffer when in
description mode: non-empty after stripping and not one of the marker lines. -/
def isContentLine (raw : List Char) : Bool :=
  !(strip raw).isEmpty && !titleMarker.isPrefixOf (strip raw)
    && !descMarker.isPrefixOf (strip raw)

/-- The line list has a description-marker line with some appendable line
after it. -/
def markerThenContent (lines : List (List Char)) : Prop :=
  ∃ pre suf, lines = pre ++ suf ∧ (∃ m ∈ pre, isDescMarkerLine m = true) ∧
    ∃ c ∈ suf, isContentLine c = true

theorem markerThenContent_cons {l : List Char} {rest : List (List Char)}
    (h : markerThenContent rest) : markerThenContent (l :: rest) := by
  obtain ⟨pre, suf, rfl, hm, hc⟩ := h
  exact ⟨l :: pre, suf, rfl, by
    obtain ⟨m, hm1, hm2⟩ := hm
    exact ⟨m, List.mem_cons_of_mem l hm1, hm2⟩, hc⟩

/-- Case facts for one scan step. -/
theorem scanLine_cases (st : ScanState) (raw : List Char) :
    ((scanLine st raw).descLines = st.descLines ∨
      (st.inDesc = true ∧ isContentLine raw = true)) ∧
    ((scanLine st raw).inDesc = st.inDesc ∨ isDescMarkerLine raw = true) ∧
    ((scanLine st raw).title = st.title ∨ isTitleLine raw = true) := by
  rw [scanLine]
  split
  · rename_i h
    exact ⟨.inl rfl, .inl rfl, .inr h⟩
  · split
    · rename_i h1 h2
      exact ⟨.inl rfl, .inr h2, .inl rfl⟩
    · split
      · rename_i h1 h2 h3
        rw [Bool.and_eq_true, Bool.not_eq_true'] at h3
        refine ⟨.inr ⟨h3.1, ?_⟩, .inl rfl, .inl rfl⟩
        rw [isContentLine, h3.2]
        rw [Bool.not_eq_true] at h1 h2
        simp [h1, h2]
      · exact ⟨.inl rfl, .inl rfl, .inl rfl⟩

/-- If the scan of `lines` ends with a non-empty title then either it started
with one or some line carries the title marker. -/
theorem scan_title_source : ∀ (lines : List (List Char)) (st : ScanState),
    (lines.foldl scanLine st).title ≠ [] →
    st.title ≠ [] ∨ ∃ l ∈ lines, isTitleLine l = true
  | [], st, h => .inl h
  | raw :: rest, st, h => by
    rcases scan_title_source rest (scanLine st raw) h with h' | ⟨l, hl, hl2⟩
    · rcases (scanLine_cases st raw).2.2 with heq | ht
      · exact .inl (heq ▸ h')
      · exact .inr ⟨raw, List.mem_cons_self raw rest, ht⟩
    · exact .inr ⟨l, List.mem_cons_of_mem raw hl, hl2⟩

/-- If the scan of `lines` grew the description buffer then either description
mode was already on and some line is appendable, or a description-marker line
is followed (later in `lines`) by an appendable line. -/
theorem scan_desc_source : ∀ (lines : List (List Char)) (st : ScanState),
    (lines.foldl scanLine st).descLines ≠ st.descLines →
    (st.inDesc = true ∧ ∃ c ∈ lines, isContentLine c = true) ∨ markerThenContent lines
  | [], st, h => absurd rfl h
  | raw :: rest, st, h => by
    by_cases hstep : (scanLine st raw).descLines = st.descLines
    · have h2 : (rest.foldl scanLine (scanLine st raw)).descLines
          ≠ (scanLine st raw).descLines := by
        rw [hstep]
        exact h
      rcases scan_desc_source rest (scanLine st raw) h2 with ⟨hin, c, hc1, hc2⟩ | hmtc
      · by_cases hin0 : st.inDesc = true
        · exact .inl ⟨hin0, c, List.mem_cons_of_mem raw hc1, hc2⟩
        · rcases (scanLine_cases st raw).2.1 with heq | hdm
          · rw [heq] at hin
            exact absurd hin hin0
          · exact .inr ⟨[raw], rest, rfl, ⟨raw, List.mem_singleton.mpr rfl, hdm⟩,
              ⟨c, hc1, hc2⟩⟩
      · exact .inr (markerThenContent_cons hmtc)
    · rcases (scanLine_cases st raw).1 with heq | ⟨hin, hcontent⟩
      · exact absurd heq hstep
      · exact .inl ⟨hin, raw, List.mem_cons_self raw rest, hcontent⟩

/-- C5: a record is produced for a candidate block only when the block holds
the end delimiter, a title line, and a description-marker line followed by at
least one appendable description line; the sample block lacking the end
delimiter parses to the empty sequence. -/
theorem parser_requires_complete_blocks :
    (∀ (text : List Char) (r : StoryRecord), r ∈ parse_stories text →
      ∃ block ∈ splitOnSub storyDelim text,
        parseBlock block = some r ∧
        containsSub endDelim block = true ∧
        (∃ l ∈ blockLines block, isTitleLine l = true) ∧
        markerThenContent (blockLines block)) ∧
    parse_stories "---STORY---\nTITLE: X\nDESCRIPTION:\nY".toList = [] := by
  refine ⟨?_, by decide⟩
  intro text r hr
  obtain ⟨block, hb, hparse⟩ := List.mem_filterMap.mp hr
  refine ⟨block, hb, hparse, ?_⟩
  rw [parseBlock] at hparse
  by_cases hend : containsSub endDelim block = true
  · refine ⟨hend, ?_⟩
    rw [if_neg (by simp [hend])] at hparse
    set st := (blockLines block).foldl scanLine initScan with hst
    by_cases hcap : (!st.title.isEmpty && !st.descLines.isEmpty) = true
    · rw [Bool.and_eq_true, Bool.not_eq_true', List.isEmpty_eq_false,
        Bool.not_eq_true', List.isEmpty_eq_false] at hcap
      constructor
      · rcases scan_title_source (blockLines block) initScan hcap.1 with h0 | h
        · exact absurd rfl h0
        · exact h
      · have hgrow : st.descLines ≠ initScan.descLines := by
          simpa [initScan] using hcap.2
        rcases scan_desc_source (blockLines block) initScan hgrow with ⟨hin, -⟩ | h
        · simp [initScan] at hin
        · exact h
    · rw [if_neg hcap] at hparse
      cases hparse
  · rw [if_pos (by simp [hend])] at hparse
    cases hparse

def blockWitnessInput : List Char :=
  "---STORY---\nTITLE: Witness Story Title\nDESCRIPTION:\nA body line\n---END---".toList

def blockWitnessRecord : StoryRecord :=
  { title := "Witness Story Title".toList, description := "A body line".toList }

set_option maxRecDepth 4000 in
/-- Witness for C5 at a complete block. -/
theorem parser_requires_complete_blocks_witness :
    ∃ block ∈ splitOnSub storyDelim blockWitnessInput,
      parseBlock block = some blockWitnessRecord ∧
      containsSub endDelim block = true ∧
      (∃ l ∈ blockLines block, isTitleLine l = true) ∧
      markerThenContent (blockLines block) :=
  parser_requires_complete_blocks.1 blockWitnessInput blockWitnessRecord (by decide)

/-! ## Character and tokenization lemmas -/

theorem ws_false_of_toNat {c : Char} (h1 : 65 ≤ c.toNat) (h2 : c.toNat ≤ 122) :
    c.isWhitespace = false := by
  simp only [Char.isWhitespace, Bool.or_eq_false_iff, decide_eq_false_iff_not]
  refine ⟨⟨⟨fun hc => ?_, fun hc => ?_⟩, fun hc => ?_⟩, fun hc => ?_⟩ <;>
    (subst hc; revert h1 h2; decide)

/-- ASCII lower-casing does not change whether a character is whitespace. -/
theorem isWhitespace_toLower (c : Char) :
    (Char.toLower c).isWhitespace = c.isWhitespace := by
  show (if c.toNat ≥ 65 ∧ c.toNat ≤ 90 then Char.ofNat (c.toNat + 32)
      else c).isWhitespace = c.isWhitespace
  split
  · rename_i h
    rw [ws_false_of_toNat h.1 (Nat.le_trans h.2 (by norm_num))]
    obtain ⟨k, hk1, hk2, hek⟩ : ∃ k, 65 ≤ k ∧ k ≤ 90 ∧ c.toNat = k :=
      ⟨c.toNat, h.1, h.2, rfl⟩
    rw [hek]
    interval_cases k <;> decide
  · rfl

theorem toLower_of_isWhitespace {c : Char} (h : c.isWhitespace = true) :
    Char.toLower c = c := by
  simp only [Char.isWhitespace, Bool.or_eq_true, decide_eq_true_eq] at h
  rcases h with ((rfl | rfl) | rfl) | rfl <;> decide

/-- A whitespace-only string tokenizes to no tokens. -/
theorem splitWsAux_all_ws : ∀ (s : List Char),
    (∀ c ∈ s, c.isWhitespace = true) → splitWsAux s [] = []
  | [], _ => rfl
  | c :: rest, h => by
    rw [splitWsAux, if_pos (h c (List.mem_cons_self c rest))]
    simpa using splitWsAux_all_ws rest (fun d hd => h d (List.mem_cons_of_mem c hd))

theorem splitWsAux_ne_nil_of_acc : ∀ (s acc : List Char), acc ≠ [] →
    splitWsAux s acc ≠ []
  | [], acc, h => by
    rw [splitWsAux, if_neg (by simpa [List.isEmpty_iff] using h)]
    exact List.cons_ne_nil _ _
  | c :: rest, acc, h => by
    rw [splitWsAux]
    split
    · rw [if_neg (by simpa [List.isEmpty_iff] using h)]
      exact List.cons_ne_nil _ _
    · exact splitWsAux_ne_nil_of_acc rest (c :: acc) (List.cons_ne_nil c acc)

/-- A string with a non-whitespace character tokenizes to at least one token. -/
theorem splitWsAux_ne_nil : ∀ (s : List Char),
    (∃ c ∈ s, c.isWhitespace = false) → splitWsAux s [] ≠ []
  | [], h => by simp at h
  | c :: rest, h => by
    rw [splitWsAux]
    by_cases hws : c.isWhitespace = true
    · rw [if_pos hws]
      obtain ⟨d, hd, hdws⟩ := h
      rcases List.mem_cons.mp hd with rfl | hd2
      · rw [hws] at hdws
        cases hdws
      · simpa using splitWsAux_ne_nil rest ⟨d, hd2, hdws⟩
    · rw [if_neg hws]
      exact splitWsAux_ne_nil_of_acc rest [c] (List.cons_ne_nil c [])

/-! ## Fallback-scan characterization -/

/-- With a non-empty keyword list the fallback loop never raises and returns
the threshold-filtered candidates, each with its score, in original order. -/
theorem fallbackScan_ok (keywords : List (List Char)) (hk : keywords ≠ []) :
    ∀ pages : List (List Char),
      fallbackScan keywords pages =
        .ok ((pages.filter fun p =>
            decide ((3 : ℚ) / 10 ≤ keywordScore keywords p)).map
          fun p => { path := p, confidence := keywordScore keywords p })
  | [] => rfl
  | page :: rest => by
    rw [fallbackScan, if_neg (by simpa [List.length_eq_zero] using hk),
      fallbackScan_ok keywords hk rest, List.filter_cons]
    by_cases hs : (3 : ℚ) / 10 ≤ keywordScore keywords page
    · simp [hs]
    · simp [hs]

/-- With an empty keyword list the first candidate raises the division. -/
theorem fallbackScan_error (p : List Char) (pages : List (List Char)) :
    fallbackScan [] (p :: pages) = .error () := by
  rw [fallbackScan]
  rfl

/-! ## C8: case-insensitivity of the fallback scorer -/

/-- C8: two phrases equal up to letter case produce the same keyword list,
hence the same score for every candidate and the same matches on both entry
points. -/
theorem fallback_case_insensitive (p1 p2 : List Char) (pages : List (List Char))
    (h : lowerStr p1 = lowerStr p2) :
    (∀ page : List Char,
      keywordScore (epicKeywords p1) page = keywordScore (epicKeywords p2) page) ∧
    fallbackMatchEpic p1 pages = fallbackMatchEpic p2 pages ∧
    fallbackMatchWiki p1 pages = fallbackMatchWiki p2 pages := by
  have hkw : epicKeywords p1 = epicKeywords p2 := by
    rw [epicKeywords, h, epicKeywords]
  refine ⟨fun page => by rw [hkw], ?_, ?_⟩
  · rw [fallbackMatchEpic, hkw, fallbackMatchEpic]
  · rw [fallbackMatchWiki, fallbackMatchEpic, hkw, fallbackMatchWiki, fallbackMatchEpic]

def caseCandidates : List (List Char) :=
  ["Wallet-Setup-And-Topup".toList, "Unrelated-Page".toList]

/-- Witness for C8 at the phrases "Wallet Setup" and "wallet setup". -/
theorem fallback_case_insensitive_witness :
    (∀ page : List Char,
      keywordScore (epicKeywords "Wallet Setup".toList) page =
        keywordScore (epicKeywords "wallet setup".toList) page) ∧
    fallbackMatchEpic "Wallet Setup".toList caseCandidates =
      fallbackMatchEpic "wallet setup".toList caseCandidates ∧
    fallbackMatchWiki "Wallet Setup".toList caseCandidates =
      fallbackMatchWiki "wallet setup".toList caseCandidates :=
  fallback_case_insensitive "Wallet Setup".toList "wallet setup".toList
    caseCandidates (by decide)

/-! ## C9: the unguarded division in the fallback scorer -/

/-- C9: the fallback score divides by the phrase's token count with no guard.
A non-empty, whitespace-only epic title passes the missing-title check, yet
with a non-empty corpus the loop raises at its first candidate and step 2
reports the wiki-search-failed error rather than an empty match set; when the
phrase has at least one non-whitespace character the loop is total. -/
theorem fallback_division_unguarded :
    (∀ (phrase : List Char) (pages : List (List Char)),
      phrase ≠ [] → (∀ c ∈ phrase, c.isWhitespace = true) → pages ≠ [] →
      epicTitleMissing phrase = false ∧
      fallbackMatchEpic phrase pages = .error () ∧
      step2Fallback phrase pages = .wikiSearchFailed) ∧
    (∀ (phrase : List Char) (pages : List (List Char)),
      (∃ c ∈ phrase, c.isWhitespace = false) →
      ∃ l, fallbackMatchEpic phrase pages = .ok l) := by
  constructor
  · intro phrase pages hne hws hpages
    have hkw : epicKeywords phrase = [] := by
      rw [epicKeywords, splitWs]
      refine splitWsAux_all_ws (lowerStr phrase) ?_
      intro c hc
      obtain ⟨d, hd, rfl⟩ := List.mem_map.mp hc
      rw [isWhitespace_toLower]
      exact hws d hd
    obtain ⟨p, rest, rfl⟩ := List.exists_cons_of_ne_nil hpages
    have herr : fallbackMatchEpic phrase (p :: rest) = .error () := by
      rw [fallbackMatchEpic, hkw, fallbackScan_error]
    refine ⟨by simpa [epicTitleMissing, List.isEmpty_iff] using hne, herr, ?_⟩
    rw [step2Fallback, if_neg (by simp [List.isEmpty_iff]), herr]
  · intro phrase pages hnws
    have hkw : epicKeywords phrase ≠ [] := by
      rw [epicKeywords, splitWs]
      refine splitWsAux_ne_nil (lowerStr phrase) ?_
      obtain ⟨c, hc, hcws⟩ := hnws
      refine ⟨Char.toLower c, List.mem_map_of_mem Char.toLower hc, ?_⟩
      rw [isWhitespace_toLower]
      exact hcws
    exact ⟨_, fallbackScan_ok (epicKeywords phrase) hkw pages⟩

/-- Witness for C9: the whitespace-only title " " with a one-page corpus, and
the title "a" for totality. -/
theorem fallback_division_unguarded_witness :
    (epicTitleMissing " ".toList = false ∧
      fallbackMatchEpic " ".toList ["Wallet-Setup".toList] = .error () ∧
      step2Fallback " ".toList ["Wallet-Setup".toList] = .wikiSearchFailed) ∧
    ∃ l, fallbackMatchEpic "a".toList ["Wallet-Setup".toList] = .ok l :=
  ⟨fallback_division_unguarded.1 " ".toList ["Wallet-Setup".toList]
      (by decide) (by decide) (by decide),
    fallback_division_unguarded.2 "a".toList ["Wallet-Setup".toList]
      ⟨'a', by decide, by decide⟩⟩

/-! ## C1: fallback output, thresholds and ordering on the two entry points -/

theorem descLE_trans (a b c : MatchResult) :
    descLE a b → descLE b c → descLE a c := by
  simp only [descLE, decide_eq_true_eq]
  exact fun h1 h2 => le_trans h2 h1

theorem descLE_total (a b : MatchResult) : descLE a b || descLE b a := by
  simp only [descLE, Bool.or_eq_true, decide_eq_true_eq]
  exact le_total b.confidence a.confidence

/-- The sorted permutation returned by the `find_wiki_pages` fallback. -/
theorem sortDesc_sorted (l : List MatchResult) :
    (sortDesc l).Pairwise fun a b => b.confidence ≤ a.confidence := by
  refine (List.sorted_mergeSort descLE_trans descLE_total l).imp ?_
  intro a b h
  simpa [descLE] using h

theorem sortDesc_perm (l : List MatchResult) : List.Perm (sortDesc l) l :=
  List.mergeSort_perm l descLE

/-- Stability of the sort: the candidates sharing any given confidence value
keep their original relative order. -/
theorem sortDesc_stable (l : List MatchResult) (q : ℚ) :
    (sortDesc l).filter (fun m => m.confidence == q) =
      l.filter (fun m => m.confidence == q) := by
  have hpw : (l.filter (fun m => m.confidence == q)).Pairwise
      fun a b => descLE a b := by
    refine List.pairwise_of_forall_mem_list ?_
    intro a ha b hb
    have ha2 : a.confidence = q := by simpa using (List.mem_filter.mp ha).2
    have hb2 : b.confidence = q := by simpa using (List.mem_filter.mp hb).2
    simp [descLE, ha2, hb2]
  have hsub : List.Sublist (l.filter (fun m => m.confidence == q)) (sortDesc l) :=
    List.sublist_mergeSort descLE_trans descLE_total hpw (List.filter_sublist l)
  have hsub2 : List.Sublist (l.filter (fun m => m.confidence == q))
      ((sortDesc l).filter (fun m => m.confidence == q)) := by
    have h2 := hsub.filter (fun m => m.confidence == q)
    have h3 : List.filter (fun m => m.confidence == q)
        (List.filter (fun m => m.confidence == q) l)
        = List.filter (fun m => m.confidence == q) l :=
      List.filter_eq_self.mpr (fun a ha => (List.mem_filter.mp ha).2)
    rwa [h3] at h2
  have hperm : List.Perm ((sortDesc l).filter (fun m => m.confidence == q))
      (l.filter (fun m => m.confidence == q)) := (sortDesc_perm l).filter _
  exact (hsub2.eq_of_length hperm.length_eq.symm).symm

/-- C1 (amended): with a tokenizable phrase, both fallback entry points keep
exactly the candidates scoring at least 0.3; `generate_from_epic` returns
them in original candidate order with no sort, while `find_wiki_pages`
additionally sorts them by descending confidence, stably. -/
theorem relevance_fallback_amended (phrase : List Char) (pages : List (List Char))
    (hk : epicKeywords phrase ≠ []) :
    ∃ l, fallbackMatchEpic phrase pages = .ok l ∧
      fallbackMatchWiki phrase pages = .ok (sortDesc l) ∧
      l = (pages.filter fun p =>
            decide ((3 : ℚ) / 10 ≤ keywordScore (epicKeywords phrase) p)).map
          (fun p => { path := p, confidence := keywordScore (epicKeywords phrase) p }) ∧
      ((sortDesc l).Pairwise fun a b => b.confidence ≤ a.confidence) ∧
      List.Perm (sortDesc l) l ∧
      (∀ q : ℚ, (sortDesc l).filter (fun m => m.confidence == q) =
        l.filter (fun m => m.confidence == q)) := by
  refine ⟨_, fallbackScan_ok (epicKeywords phrase) hk pages, ?_, rfl,
    sortDesc_sorted _, sortDesc_perm _, fun q => sortDesc_stable _ q⟩
  rw [fallbackMatchWiki, fallbackMatchEpic, fallbackScan_ok (epicKeywords phrase) hk pages]
  rfl

def specCorpus : List (List Char) :=
  ["Wallet-Setup".toList, "Wallet-Payments".toList, "Unrelated-Page".toList]

def specPhrase : List Char := "Wallet Top-Up Feature".toList

/-- Witness for the amended C1 at the specification's end-to-end example. -/
theorem relevance_fallback_amended_witness :
    ∃ l, fallbackMatchEpic specPhrase specCorpus = .ok l ∧
      fallbackMatchWiki specPhrase specCorpus = .ok (sortDesc l) ∧
      l = (specCorpus.filter fun p =>
            decide ((3 : ℚ) / 10 ≤ keywordScore (epicKeywords specPhrase) p)).map
          (fun p => { path := p, confidence := keywordScore (epicKeywords specPhrase) p }) ∧
      ((sortDesc l).Pairwise fun a b => b.confidence ≤ a.confidence) ∧
      List.Perm (sortDesc l) l ∧
      (∀ q : ℚ, (sortDesc l).filter (fun m => m.confidence == q) =
        l.filter (fun m => m.confidence == q)) :=
  relevance_fallback_amended specPhrase specCorpus (by decide)

/-- Adjacent descending order on confidences, as a checkable predicate. -/
def sortedDescB : List MatchResult → Bool
  | [] => true
  | [_] => true
  | a :: b :: rest => descLE a b && sortedDescB (b :: rest)

def cexPages : List (List Char) := ["xa".toList, "ab".toList]

def cexMatches : List MatchResult :=
  [{ path := "xa".toList, confidence := 1 / 2 },
   { path := "ab".toList, confidence := 1 }]

/-- Counterexample to C1 as stated: on the `generate_from_epic` entry point
the fallback output for phrase "a b" over candidates ["xa", "ab"] keeps both
candidates (scores 1/2 and 1) in original order, which is not descending by
score. -/
theorem relevance_fallback_counterexample :
    fallbackMatchEpic "a b".toList cexPages = .ok cexMatches ∧
    sortedDescB cexMatches = false := by
  constructor
  · have hkw : epicKeywords "a b".toList = [['a'], ['b']] := by decide
    have hxa : keywordScore [['a'], ['b']] "xa".toList = 1 / 2 := by
      rw [keywordScore,
        show ([['a'], ['b']].countP fun w => containsSub w (lowerStr "xa".toList)) = 1
          from by decide]
      norm_num
    have hab : keywordScore [['a'], ['b']] "ab".toList = 1 := by
      rw [keywordScore,
        show ([['a'], ['b']].countP fun w => containsSub w (lowerStr "ab".toList)) = 2
          from by decide]
      norm_num
    rw [fallbackMatchEpic, hkw,
      fallbackScan_ok [['a'], ['b']] (by decide) cexPages]
    rw [cexPages, List.filter_cons, List.filter_cons, List.filter_nil]
    rw [if_pos (by rw [hxa]; norm_num), if_pos (by rw [hab]; norm_num)]
    rw [List.map_cons, List.map_cons, List.map_nil, hxa, hab]
    rfl
  · have h1 : descLE { path := "xa".toList, confidence := 1 / 2 }
        { path := "ab".toList, confidence := 1 } = false := by
      rw [descLE, decide_eq_false_iff_not]
      norm_num
    calc sortedDescB cexMatches
        = (descLE { path := "xa".toList, confidence := 1 / 2 }
            { path := "ab".toList, confidence := 1 }
          && sortedDescB [{ path := "ab".toList, confidence := 1 }]) := rfl
      _ = false := by rw [h1]; rfl
